import Mathlib

/-!
Verification of the `ltv-comm-it` community bulletin-board application.

The development shallowly embeds the post CRUD service
(`src/services/postsService.ts`) and the `/process-audio` voice pipeline
(the extraction retry loop and the route handler) as pure Lean functions,
and proves the specified properties about them.  External effects (the
clock, the storage backend, the transcription and language-model services,
the temporary file system) are modelled as explicit parameters or oracles.
-/

namespace CommIt

/-! ## Data model

`Post` mirrors the TypeScript interface in `src/types.ts`: all fields are
JSON scalars; `id` is a number and the remaining fields are strings
(`type` holds "Offer" or "Request" on well-formed data). -/

structure Post where
  id : Int
  title : String
  type : String
  author : String
  location : String
  description : String
  date : String
  category : String
deriving DecidableEq, Repr, Inhabited

/-- A draft submitted to `createPost`: a `Post` minus `id` and `date`
(TypeScript Omit of Post without id and date). -/
structure Draft where
  title : String
  type : String
  author : String
  location : String
  description : String
  category : String
deriving DecidableEq, Repr

/-- The demo posts `INITIAL_POSTS` hard-coded in
`src/services/postsService.ts`. -/
def INITIAL_POSTS : List Post :=
  [ { id := 1, title := "Free Piano Lessons for Seniors", type := "Offer",
      author := "Sarah Chen", location := "Cambridge",
      description := "Offering free piano lessons for seniors at the community center. Available every Saturday morning.",
      date := "2024-03-15", category := "Education" },
    { id := 2, title := "Community Garden Volunteers Needed", type := "Request",
      author := "Mike Johnson", location := "Boston",
      description := "Looking for volunteers to help maintain our community garden. Tools and refreshments provided.",
      date := "2024-03-14", category := "Volunteering" },
    { id := 3, title := "Local Art Exhibition Space Available", type := "Offer",
      author := "Emma Davis", location := "Cambridge",
      description := "Offering free exhibition space for local artists at the neighborhood gallery.",
      date := "2024-03-13", category := "Arts" } ]

/-! ## Post service (`src/services/postsService.ts`)

The persisted store is modelled as the list of posts it currently holds;
each operation takes the store and returns its result together with the
store contents after the call (unchanged when the code never calls
`savePosts`). -/

/-- JavaScript `Math.max(...l)` for a non-empty argument list: fold binary
`max` over the spread arguments.  (The `[]` case corresponds to
`Math.max()` = `-Infinity`, which `createPost` never evaluates; we return
`0` there.) -/
def jsMax (l : List Int) : Int :=
  match l with
  | [] => 0
  | x :: xs => xs.foldl max x

/-- Operation `createPost(postData)` from `src/services/postsService.ts` lines
142-155: read the store, build the new post with
`id = posts.length > 0 ? Math.max(...posts.map(p => p.id)) + 1 : 1` and
`date` = today, `unshift` it onto the list, persist.  The current date
(from `new Date().toISOString()`, date part only) is passed in as `today`.
Returns the new post and the persisted list. -/
def createPost (postData : Draft) (today : String) (posts : List Post) :
    Post × List Post :=
  let newPost : Post :=
    { id := if posts.length > 0 then jsMax (posts.map (fun p => p.id)) + 1 else 1,
      title := postData.title,
      type := postData.type,
      author := postData.author,
      location := postData.location,
      description := postData.description,
      date := today,
      category := postData.category }
  (newPost, newPost :: posts)

/-- Operation `getPostById(id)`: `posts.find(post => post.id === id) || null`.
No write occurs, so the store is returned unchanged. -/
def getPostById (id : Int) (posts : List Post) : Option Post × List Post :=
  (posts.find? (fun post => post.id = id), posts)

/-- The patch argument of `updatePost`: `Partial<Post>` restricted to the
post fields (each field optionally present; spreading the patch over the
existing record keeps absent fields). -/
structure PostPatch where
  id : Option Int := none
  title : Option String := none
  type : Option String := none
  author : Option String := none
  location : Option String := none
  description : Option String := none
  date : Option String := none
  category : Option String := none
deriving DecidableEq, Repr

/-- Spread-merge of the patch over the record: fields present in the patch overwrite the
record. -/
def applyPatch (post : Post) (patch : PostPatch) : Post :=
  { id := patch.id.getD post.id,
    title := patch.title.getD post.title,
    type := patch.type.getD post.type,
    author := patch.author.getD post.author,
    location := patch.location.getD post.location,
    description := patch.description.getD post.description,
    date := patch.date.getD post.date,
    category := patch.category.getD post.category }

/-- Operation `updatePost(id, postData)`: `findIndex`, return `null` on `-1`
(modelled by `findIdx?` returning `none`), otherwise merge and persist the
list with the element replaced. -/
def updatePost (id : Int) (patch : PostPatch) (posts : List Post) :
    Option Post × List Post :=
  match posts.findIdx? (fun post => post.id = id) with
  | none => (none, posts)
  | some index =>
      let updatedPost := applyPatch (posts.getD index default) patch
      (some updatedPost, posts.set index updatedPost)

/-- Operation `deletePost(id)`: filter out the id; if the length is unchanged return
`false` without persisting, else persist the filtered list. -/
def deletePost (id : Int) (posts : List Post) : Bool × List Post :=
  let filteredPosts := posts.filter (fun post => post.id ≠ id)
  if filteredPosts.length = posts.length then
    (false, posts)
  else
    (true, filteredPosts)

/-! ## Store reads (`getPosts`)

`getPosts` reads the whole persisted list: in production from the remote
key-value store, in development from a JSON file.  The environment
outcomes below model the ways that read can go. -/

/-- What the backing store holds under the posts key: a JSON value that
parses to a post list, or bytes `JSON.parse` rejects. -/
inductive StoredVal
  | good (posts : List Post)
  | corrupt
deriving DecidableEq, Repr

/-- Outcome of the production (remote store) read path. -/
inductive ProdRead
  | connectFail
  | missingKey
  | readFail
  | value (v : StoredVal)
deriving DecidableEq, Repr

/-- Outcome of the development (local file) read path. -/
inductive DevRead
  | fileMissing
  | readFail
  | value (v : StoredVal)
deriving DecidableEq, Repr

/-- The environment `getPosts` runs in: which backend is selected and how
the read goes. -/
inductive StoreEnv
  | production (r : ProdRead)
  | development (r : DevRead)
deriving DecidableEq, Repr

/-- Exceptions the `try` body of `getPosts` can raise. -/
inductive StorageError
  | connectionError
  | readError
  | jsonError
deriving DecidableEq, Repr

/-- The `try` body of `getPosts`: read the store, raising on connection
failure, unreadable data, or corrupt JSON.  A missing key / missing file
is not an exception: the code initialises the store with the demo data
and returns it. -/
def readPostsStore : StoreEnv → Except StorageError (List Post)
  | StoreEnv.production ProdRead.connectFail => Except.error StorageError.connectionError
  | StoreEnv.production ProdRead.missingKey => Except.ok INITIAL_POSTS
  | StoreEnv.production ProdRead.readFail => Except.error StorageError.readError
  | StoreEnv.production (ProdRead.value StoredVal.corrupt) => Except.error StorageError.jsonError
  | StoreEnv.production (ProdRead.value (StoredVal.good l)) => Except.ok l
  | StoreEnv.development DevRead.fileMissing => Except.ok INITIAL_POSTS
  | StoreEnv.development DevRead.readFail => Except.error StorageError.readError
  | StoreEnv.development (DevRead.value StoredVal.corrupt) => Except.error StorageError.jsonError
  | StoreEnv.development (DevRead.value (StoredVal.good l)) => Except.ok l

/-- Operation `getPosts()`: the read wrapped in the catch-all that logs the error
and returns `[...INITIAL_POSTS]`. -/
def getPosts (env : StoreEnv) : List Post :=
  match readPostsStore env with
  | Except.ok l => l
  | Except.error _ => INITIAL_POSTS

/-! ## Iterated creation

`createFrom drafts dates init n` performs `n` `createPost` calls in
sequence starting from store contents `init`, the k-th call using draft
`drafts k` and date `dates k`.  It returns the final store contents
together with the created posts in creation order. -/

def createFrom (drafts : Nat → Draft) (dates : Nat → String)
    (init : List Post) : Nat → List Post × List Post
  | 0 => (init, [])
  | n + 1 =>
      let s := createFrom drafts dates init n
      let r := createPost (drafts n) (dates n) s.1
      (r.2, s.2 ++ [r.1])

/-- The list `[n, n-1, ..., 1]` as integers: the ids held by the store after `n`
creates from the empty store, newest first. -/
def countdown : Nat → List Int
  | 0 => []
  | n + 1 => ((n : Int) + 1) :: countdown n

/-! ## Voice extraction pipeline (`POST /process-audio`)

Two drafts of the route handler exist in the source.  Per the
specification the canonical one is the later draft whose schema has all
content fields optional ("graceful partial-field handling"); the earlier
draft has required fields, a missing-fields check raising an
INSUFFICIENT_INFO signal, and a no-retry short-circuit for that signal.
Both are embedded (suffix `V1` for the earlier draft, `V2` for the
canonical one); the shared pieces carry no suffix.

The language model is an oracle: each attempt either sees the
chat-completion call throw, or receives a response text that is
malformed JSON, or receives a response text parsing to an object.  JSON
values in that object are modelled as strings or an opaque non-string
value (the schema only distinguishes those two cases). -/

/-- A JSON field value as the schema sees it. -/
inductive JVal
  | str (s : String)
  | nonString
deriving DecidableEq, Repr

/-- The object obtained by `JSON.parse` of the model response (only the
keys the code ever touches; absent keys are `none`). -/
structure LlmJson where
  title : Option JVal := none
  description : Option JVal := none
  location : Option JVal := none
  category : Option JVal := none
  author : Option JVal := none
  type : Option JVal := none
  missing_fields : List String := []
deriving DecidableEq, Repr

/-- Values thrown inside an extraction attempt: a plain-object
`CustomError` with a `type` tag, a `z.ZodError`, a JSON `SyntaxError`, or
the initial `null` of `lastError`. -/
inductive Thrown
  | custom (ctype : String) (message : String) (fields : List String)
      (details : List String)
  | zodError (details : List String)
  | jsParseError (message : String)
  | nullThrown
deriving DecidableEq, Repr

/-- What one LLM attempt observes. -/
inductive Attempt
  | apiFailure (t : Thrown)
  | malformed (message : String)
  | parsed (j : LlmJson)
deriving DecidableEq, Repr

/-- Empty-string cleanup: fields holding the empty string become `undefined`. -/
def coerceEmpty (v : Option JVal) : Option JVal :=
  match v with
  | some (JVal.str "") => none
  | x => x

/-- Acceptance of `z.string().optional()`. -/
def isOptionalString (v : Option JVal) : Bool :=
  match v with
  | none => true
  | some (JVal.str _) => true
  | some JVal.nonString => false

/-- Acceptance of `z.string().min(1)` (required non-empty string). -/
def isRequiredString (v : Option JVal) : Bool :=
  match v with
  | some (JVal.str s) => decide (s ≠ "")
  | _ => false

/-- Read a string-valued field. -/
def asStr (v : Option JVal) : Option String :=
  match v with
  | some (JVal.str s) => some s
  | _ => none

/-- Output of the canonical schema: all content fields optional, `type`
the stamped kind. -/
structure Extracted where
  title : Option String := none
  description : Option String := none
  location : Option String := none
  category : Option String := none
  author : Option String := none
  type : String
deriving DecidableEq, Repr

/-- Output of the earlier draft schema: required content fields,
optional description. -/
structure ExtractedV1 where
  title : String
  description : Option String := none
  location : String
  category : String
  author : String
  type : String
deriving DecidableEq, Repr

/-- Validation issues of the canonical `PostSchema` on the cleaned data
with `type` stamped to `postType` (every content field cleaned by the
empty-string loop, then checked as an optional string; the stamped
`type` checked against the enum). -/
def zodIssuesV2 (postType : String) (j : LlmJson) : List String :=
  (if isOptionalString (coerceEmpty j.title) then [] else ["title"]) ++
  (if isOptionalString (coerceEmpty j.description) then [] else ["description"]) ++
  (if isOptionalString (coerceEmpty j.location) then [] else ["location"]) ++
  (if isOptionalString (coerceEmpty j.category) then [] else ["category"]) ++
  (if isOptionalString (coerceEmpty j.author) then [] else ["author"]) ++
  (if postType = "Offer" ∨ postType = "Request" then [] else ["type"])

/-- Validation issues of the earlier draft `PostSchema` (only the
description is cleaned; title, location, category, author are required
non-empty strings). -/
def zodIssuesV1 (postType : String) (j : LlmJson) : List String :=
  (if isRequiredString j.title then [] else ["title"]) ++
  (if isOptionalString (coerceEmpty j.description) then [] else ["description"]) ++
  (if isRequiredString j.location then [] else ["location"]) ++
  (if isRequiredString j.category then [] else ["category"]) ++
  (if isRequiredString j.author then [] else ["author"]) ++
  (if postType = "Offer" ∨ postType = "Request" then [] else ["type"])

/-- The `CustomError` built on the final attempt from a `ZodError`. -/
def invalidFormatError (details : List String) : Thrown :=
  Thrown.custom "INVALID_FORMAT"
    "The extracted data does not match the required format" [] details

/-- The `CustomError` thrown by the earlier draft when the model reports
missing required fields. -/
def insufficientInfoError (fields : List String) : Thrown :=
  Thrown.custom "INSUFFICIENT_INFO"
    "Not enough information provided in the audio" fields []

/-- The check that the thrown value is an object whose `type` property
equals INSUFFICIENT_INFO. -/
def hasInsufficientTag (t : Thrown) : Bool :=
  match t with
  | Thrown.custom ctype _ _ _ => ctype = "INSUFFICIENT_INFO"
  | _ => false

/-- One extraction attempt of the canonical draft: call the model, parse
its response as JSON, drop `missing_fields`, clean empty strings, stamp
`type := postType`, validate against the all-optional schema. -/
def attemptResultV2 (postType : String) (a : Attempt) :
    Except Thrown Extracted :=
  match a with
  | Attempt.apiFailure t => Except.error t
  | Attempt.malformed m => Except.error (Thrown.jsParseError m)
  | Attempt.parsed j =>
      if zodIssuesV2 postType j = [] then
        Except.ok
          { title := asStr (coerceEmpty j.title),
            description := asStr (coerceEmpty j.description),
            location := asStr (coerceEmpty j.location),
            category := asStr (coerceEmpty j.category),
            author := asStr (coerceEmpty j.author),
            type := postType }
      else Except.error (Thrown.zodError (zodIssuesV2 postType j))

/-- One extraction attempt of the earlier draft: additionally, a
non-empty `missing_fields` array raises the INSUFFICIENT_INFO signal
before validation, and only the description is cleaned. -/
def attemptResultV1 (postType : String) (a : Attempt) :
    Except Thrown ExtractedV1 :=
  match a with
  | Attempt.apiFailure t => Except.error t
  | Attempt.malformed m => Except.error (Thrown.jsParseError m)
  | Attempt.parsed j =>
      if j.missing_fields ≠ [] then
        Except.error (insufficientInfoError j.missing_fields)
      else if zodIssuesV1 postType j = [] then
        Except.ok
          { title := (asStr j.title).getD "",
            description := asStr (coerceEmpty j.description),
            location := (asStr j.location).getD "",
            category := (asStr j.category).getD "",
            author := (asStr j.author).getD "",
            type := postType }
      else Except.error (Thrown.zodError (zodIssuesV1 postType j))

/-- The retry loop of `processTranscriptionWithRetries` in the canonical
draft, run on the listed attempt outcomes (the list has one entry per
loop iteration, so its last entry is the `attempt === maxRetries`
iteration).  Every failure is retried; on the final attempt a `ZodError`
becomes the INVALID_FORMAT `CustomError` and any other error is
re-thrown.  The `[]` case is the trailing `throw lastError` with
`lastError` still `null`. -/
def runRetriesV2 (postType : String) : List Attempt → Except Thrown Extracted
  | [] => Except.error Thrown.nullThrown
  | a :: rest =>
      match attemptResultV2 postType a with
      | Except.ok e => Except.ok e
      | Except.error t =>
          match rest with
          | [] =>
              match t with
              | Thrown.zodError d => Except.error (invalidFormatError d)
              | _ => Except.error t
          | _ :: _ => runRetriesV2 postType rest

/-- The retry loop of the earlier draft, which re-throws an
INSUFFICIENT_INFO error immediately instead of retrying.  Also returns
how many attempts were performed. -/
def runRetriesV1 (postType : String) :
    List Attempt → Except Thrown ExtractedV1 × Nat
  | [] => (Except.error Thrown.nullThrown, 0)
  | a :: rest =>
      match attemptResultV1 postType a with
      | Except.ok e => (Except.ok e, 1)
      | Except.error t =>
          if hasInsufficientTag t then (Except.error t, 1)
          else
            match rest with
            | [] =>
                match t with
                | Thrown.zodError d => (Except.error (invalidFormatError d), 1)
                | _ => (Except.error t, 1)
            | _ :: _ =>
                let r := runRetriesV1 postType rest
                (r.1, r.2 + 1)

/-! ## The `POST /process-audio` route handler (canonical draft) -/

/-- Outcome of the transcription HTTP call. -/
inductive Transcription
  | httpError (status : Nat)
  | ok (text : String)
deriving DecidableEq, Repr

/-- The environment one route invocation runs in.  `llm n` is the outcome
of LLM attempt `n` (1-based). -/
structure RouteEnv where
  apiKeyPresent : Bool
  typeField : Option String
  audioProvided : Bool
  transcription : Transcription
  llm : Nat → Attempt

/-- JSON error payload `{error, type, missingFields?, details?}`. -/
structure ErrorBody where
  error : String
  type : String
  missingFields : List String := []
  details : List String := []
deriving DecidableEq, Repr

/-- A response body: extracted data or an error payload. -/
inductive RespBody
  | data (e : Extracted)
  | err (b : ErrorBody)
deriving DecidableEq, Repr

/-- An HTTP response of the route. -/
structure Response where
  status : Nat
  body : RespBody
deriving DecidableEq, Repr

/-- Result of a route invocation: the response, the value of the
`tempFilePath` variable, and whether the temporary audio file exists on
disk at that point. -/
structure RouteResult where
  response : Response
  tempFilePath : String
  tempFileExists : Bool
deriving DecidableEq, Repr

/-- The check `!transcriptionText || transcriptionText.trim() === ""`:
the transcript is empty or whitespace only. -/
def trimIsEmpty (s : String) : Bool :=
  s.data.all (fun c => c.isWhitespace)

/-- The request kind with its default (the JS `||` also maps
the empty string to the default). -/
def effectiveType (tf : Option String) : String :=
  match tf with
  | none => "Offer"
  | some "" => "Offer"
  | some s => s

/-- The attempt outcomes consumed by a call with `maxRetries = k`. -/
def firstAttempts (llm : Nat → Attempt) (k : Nat) : List Attempt :=
  (List.range k).map (fun i => llm (i + 1))

def serverErrorResponse (msg : String) : Response :=
  { status := 500, body := RespBody.err { error := msg, type := "SERVER_ERROR" } }

def badRequestResponse (msg : String) : Response :=
  { status := 400, body := RespBody.err { error := msg, type := "SERVER_ERROR" } }

/-- The `catch` of the inner `try` in the canonical draft: an object
tagged INVALID_FORMAT gets 422 with its details, one tagged API_ERROR
gets 500, anything else gets the generic 500 SERVER_ERROR. -/
def catchResponseV2 (t : Thrown) : Response :=
  match t with
  | Thrown.custom ctype m _ d =>
      if ctype = "INVALID_FORMAT" then
        { status := 422,
          body := RespBody.err { error := m, type := "INVALID_FORMAT", details := d } }
      else if ctype = "API_ERROR" then
        { status := 500, body := RespBody.err { error := m, type := "API_ERROR" } }
      else serverErrorResponse "Failed to process audio with Groq API"
  | _ => serverErrorResponse "Failed to process audio with Groq API"

/-- The body of the route handler (canonical draft), before the
`finally` block: configuration and input validation, temp-file write,
transcription call, empty-transcript check, extraction with retries, and
the inner `catch`. -/
def routeBodyV2 (env : RouteEnv) : RouteResult :=
  if env.apiKeyPresent = false then
    { response := serverErrorResponse "Groq API key is not configured on the server",
      tempFilePath := "", tempFileExists := false }
  else
    let postType := effectiveType env.typeField
    if ¬ (postType = "Offer" ∨ postType = "Request") then
      { response := badRequestResponse "Invalid post type. Must be \x22Offer\x22 or \x22Request\x22",
        tempFilePath := "", tempFileExists := false }
    else if env.audioProvided = false then
      { response := badRequestResponse "No audio file provided",
        tempFilePath := "", tempFileExists := false }
    else
      let innerResponse :=
        match env.transcription with
        | Transcription.httpError st =>
            catchResponseV2
              (Thrown.custom "API_ERROR"
                ("Transcription failed with status: " ++ toString st) [] [])
        | Transcription.ok t =>
            if trimIsEmpty t then
              { status := 422,
                body := RespBody.err
                  { error := "No speech detected in the audio", type := "API_ERROR" } }
            else
              match runRetriesV2 postType (firstAttempts env.llm 3) with
              | Except.ok e => { status := 200, body := RespBody.data e }
              | Except.error t => catchResponseV2 t
      { response := innerResponse, tempFilePath := "recording.wav",
        tempFileExists := true }

/-- The full route handler (canonical draft) including the `finally`
block: `if (tempFilePath) await fs.unlink(tempFilePath)`, unlink errors
swallowed. -/
def routeV2 (env : RouteEnv) : RouteResult :=
  let r := routeBodyV2 env
  if r.tempFilePath ≠ "" then { r with tempFileExists := false } else r

/-- Whether an extraction result is the INVALID_FORMAT error (of any
message and details). -/
def isInvalidFormat (r : Except Thrown Extracted) : Bool :=
  match r with
  | Except.error (Thrown.custom ctype _ _ _) => ctype = "INVALID_FORMAT"
  | _ => false

/-- A concrete route environment in which every stage succeeds on the
first attempt: the request submits kind "Request" and the model answers
with an object whose fields all validate. -/
def wEnv : RouteEnv :=
  { apiKeyPresent := true,
    typeField := some "Request",
    audioProvided := true,
    transcription := Transcription.ok "I need help moving a sofa",
    llm := fun _ => Attempt.parsed
      { title := some (JVal.str "Help moving a sofa"),
        category := some (JVal.str "Household") } }

/-- The extraction result of `wEnv`. -/
def wExtracted : Extracted :=
  { title := some "Help moving a sofa",
    category := some "Household",
    type := "Request" }

/-! ### Facts about `jsMax` -/

lemma foldl_max_le (xs : List Int) (x : Int) : x ≤ xs.foldl max x := by
  induction xs generalizing x with
  | nil => exact le_refl x
  | cons y ys ih => exact le_trans (le_max_left x y) (ih (max x y))

lemma le_foldl_max (xs : List Int) : ∀ x a : Int, a ∈ xs → a ≤ xs.foldl max x := by
  induction xs with
  | nil => intro x a ha; cases ha
  | cons y ys ih =>
      intro x a ha
      rcases List.mem_cons.mp ha with h | h
      · subst h
        exact le_trans (le_max_right x a) (foldl_max_le ys (max x a))
      · exact ih (max x y) a h

lemma foldl_max_mem (xs : List Int) :
    ∀ x : Int, xs.foldl max x = x ∨ xs.foldl max x ∈ xs := by
  induction xs with
  | nil => intro x; exact Or.inl rfl
  | cons y ys ih =>
      intro x
      rw [List.foldl_cons]
      rcases ih (max x y) with h | h
      · rcases le_total x y with hxy | hxy
        · right; rw [h, max_eq_right hxy]; exact List.mem_cons_self y ys
        · left; rw [h, max_eq_left hxy]
      · right; exact List.mem_cons_of_mem y h

/-- Function `jsMax` bounds every element of the list. -/
lemma le_jsMax (l : List Int) (a : Int) (ha : a ∈ l) : a ≤ jsMax l := by
  cases l with
  | nil => cases ha
  | cons x xs =>
      rcases List.mem_cons.mp ha with h | h
      · subst h; exact foldl_max_le xs a
      · exact le_foldl_max xs x a h

/-- On a non-empty list `jsMax` is attained by some element. -/
lemma jsMax_mem (l : List Int) (hl : l ≠ []) : jsMax l ∈ l := by
  cases l with
  | nil => exact absurd rfl hl
  | cons x xs =>
      have hdef : jsMax (x :: xs) = xs.foldl max x := rfl
      rcases foldl_max_mem xs x with h | h
      · rw [hdef, h]; exact List.mem_cons_self x xs
      · rw [hdef]; exact List.mem_cons_of_mem x h

/-! ### Helper lemmas for the post service -/

lemma jsMax_eq_of (l : List Int) (m : Int) (hub : ∀ a ∈ l, a ≤ m)
    (hmem : m ∈ l) : jsMax l = m :=
  le_antisymm (hub _ (jsMax_mem l (List.ne_nil_of_mem hmem)))
    (le_jsMax l m hmem)

lemma createPost_snd (d : Draft) (t : String) (ps : List Post) :
    (createPost d t ps).2 = (createPost d t ps).1 :: ps := rfl

lemma createPost_id (d : Draft) (t : String) (ps : List Post) :
    (createPost d t ps).1.id
      = if ps.length > 0 then jsMax (ps.map (fun p => p.id)) + 1 else 1 := rfl

lemma countdown_le (n : Nat) : ∀ a ∈ countdown n, a ≤ (n : Int) := by
  induction n with
  | zero => intro a ha; cases ha
  | succ n ih =>
      intro a ha
      rcases List.mem_cons.mp ha with h | h
      · subst h; push_cast; omega
      · have := ih a h; push_cast at this ⊢; omega

lemma jsMax_countdown (n : Nat) :
    jsMax (countdown (n + 1)) = (n : Int) + 1 := by
  refine jsMax_eq_of _ _ ?_ ?_
  · intro a ha
    have := countdown_le (n + 1) a ha
    push_cast at this; omega
  · exact List.mem_cons_self _ _

lemma countdown_reverse (n : Nat) :
    (countdown n).reverse = (List.range n).map (fun k : Nat => (k : Int) + 1) := by
  induction n with
  | zero => rfl
  | succ n ih =>
      show (((n : Int) + 1) :: countdown n).reverse = _
      rw [List.reverse_cons, ih, List.range_succ, List.map_append]
      rfl

lemma createFrom_succ_fst (drafts : Nat → Draft) (dates : Nat → String)
    (init : List Post) (n : Nat) :
    (createFrom drafts dates init (n + 1)).1
      = (createPost (drafts n) (dates n) (createFrom drafts dates init n).1).2 := rfl

lemma createFrom_succ_snd (drafts : Nat → Draft) (dates : Nat → String)
    (init : List Post) (n : Nat) :
    (createFrom drafts dates init (n + 1)).2
      = (createFrom drafts dates init n).2
          ++ [(createPost (drafts n) (dates n) (createFrom drafts dates init n).1).1] := rfl

/-- Invariant of iterated creation from the empty store: the store holds
the ids `n, ..., 1` and the creation-order id list is its reverse. -/
lemma createFrom_nil_ids (drafts : Nat → Draft) (dates : Nat → String)
    (n : Nat) :
    ((createFrom drafts dates [] n).1).map (fun p => p.id) = countdown n ∧
    ((createFrom drafts dates [] n).2).map (fun p => p.id)
      = (countdown n).reverse := by
  induction n with
  | zero => exact ⟨rfl, rfl⟩
  | succ n ih =>
      obtain ⟨ihs, ihc⟩ := ih
      have hid : (createPost (drafts n) (dates n)
          (createFrom drafts dates [] n).1).1.id = (n : Int) + 1 := by
        cases n with
        | zero =>
            have hnil : (createFrom drafts dates [] 0).1 = [] := rfl
            rw [hnil]
            rfl
        | succ m =>
            have hlen : 0 < (createFrom drafts dates [] (m + 1)).1.length := by
              have hmaplen := congrArg List.length ihs
              rw [List.length_map] at hmaplen
              rw [hmaplen]
              show 0 < (((m : Int) + 1) :: countdown m).length
              simp
            rw [createPost_id, if_pos hlen, ihs, jsMax_countdown m]
            push_cast; ring
      constructor
      · rw [createFrom_succ_fst, createPost_snd, List.map_cons, hid, ihs]
        rfl
      · rw [createFrom_succ_snd, List.map_append, ihc, List.map_cons,
          List.map_nil, hid]
        show _ = (((n : Int) + 1) :: countdown n).reverse
        rw [List.reverse_cons]

/-! ## Claim theorems: the post service -/

/-- C1: for every draft and store contents, `createPost` returns a record
made of the fields of the draft plus an id equal to the maximum existing id
plus one (or 1 when the store is empty) and the current date, and the
persisted list is the previous list with the new record prepended. -/
theorem createPost_spec (draft : Draft) (today : String) (posts : List Post) :
    (createPost draft today posts).2 = (createPost draft today posts).1 :: posts ∧
    (createPost draft today posts).1.title = draft.title ∧
    (createPost draft today posts).1.type = draft.type ∧
    (createPost draft today posts).1.author = draft.author ∧
    (createPost draft today posts).1.location = draft.location ∧
    (createPost draft today posts).1.description = draft.description ∧
    (createPost draft today posts).1.category = draft.category ∧
    (createPost draft today posts).1.date = today ∧
    (posts = [] → (createPost draft today posts).1.id = 1) ∧
    (posts ≠ [] →
      (∀ p ∈ posts, p.id + 1 ≤ (createPost draft today posts).1.id) ∧
      ∃ p ∈ posts, (createPost draft today posts).1.id = p.id + 1) := by
  refine ⟨rfl, rfl, rfl, rfl, rfl, rfl, rfl, rfl, ?_, ?_⟩
  · intro h; subst h; rfl
  · intro h
    have hlen : 0 < posts.length := List.length_pos.mpr h
    have hid : (createPost draft today posts).1.id
        = jsMax (posts.map (fun p => p.id)) + 1 := by
      rw [createPost_id, if_pos hlen]
    constructor
    · intro p hp
      have hle : p.id ≤ jsMax (posts.map (fun p => p.id)) :=
        le_jsMax _ _ (List.mem_map_of_mem _ hp)
      rw [hid]
      omega
    · have hmem : jsMax (posts.map (fun p => p.id)) ∈ posts.map (fun p => p.id) :=
        jsMax_mem _ (by
          intro hc
          exact h (List.map_eq_nil_iff.mp hc))
      rcases List.mem_map.mp hmem with ⟨p, hp, hpe⟩
      exact ⟨p, hp, by rw [hid, hpe]⟩

/-- Witness for C1: a concrete draft created over the demo store gets id
4 = (max id 3) + 1, and over the empty store gets id 1. -/
theorem createPost_spec_witness :
    INITIAL_POSTS ≠ [] ∧
    (∀ p ∈ INITIAL_POSTS, p.id + 1 ≤
      (createPost { title := "T", type := "Offer", author := "A",
                    location := "Boston", description := "D",
                    category := "C" } "2024-05-01" INITIAL_POSTS).1.id) ∧
    ∃ p ∈ INITIAL_POSTS,
      (createPost { title := "T", type := "Offer", author := "A",
                    location := "Boston", description := "D",
                    category := "C" } "2024-05-01" INITIAL_POSTS).1.id
        = p.id + 1 := by
  have h := (createPost_spec
    { title := "T", type := "Offer", author := "A", location := "Boston",
      description := "D", category := "C" } "2024-05-01"
    INITIAL_POSTS).2.2.2.2.2.2.2.2.2 (List.cons_ne_nil _ _)
  exact ⟨List.cons_ne_nil _ _, h.1, h.2⟩

/-- C2: starting from the empty store, N sequential `createPost` calls
assign the identifiers 1, 2, ..., N in creation order: the assigned id
list equals `[1, ..., N]`, is strictly increasing, and has no
duplicates. -/
theorem createPost_sequential_ids (drafts : Nat → Draft)
    (dates : Nat → String) (n : Nat) :
    ((createFrom drafts dates [] n).2).map (fun p => p.id)
        = (List.range n).map (fun k : Nat => (k : Int) + 1) ∧
    List.Pairwise (fun a b : Int => a < b)
      (((createFrom drafts dates [] n).2).map (fun p => p.id)) ∧
    (((createFrom drafts dates [] n).2).map (fun p => p.id)).Nodup := by
  have heq : ((createFrom drafts dates [] n).2).map (fun p => p.id)
      = (List.range n).map (fun k : Nat => (k : Int) + 1) := by
    rw [(createFrom_nil_ids drafts dates n).2, countdown_reverse]
  have hpw : List.Pairwise (fun a b : Int => a < b)
      (((createFrom drafts dates [] n).2).map (fun p => p.id)) := by
    rw [heq]
    refine List.Pairwise.map _ ?_ (List.pairwise_lt_range n)
    intro a b hab
    omega
  exact ⟨heq, hpw, hpw.imp (fun hab => ne_of_lt hab)⟩

/-- C7: after any sequence of creates from any initial store contents,
the list read back by `getPosts` is the created records newest-first
followed by the initial records — so every created record appears before
all records that existed when it was created. -/
theorem listPosts_most_recent_first (drafts : Nat → Draft)
    (dates : Nat → String) (init : List Post) (n : Nat) :
    getPosts (StoreEnv.development (DevRead.value
        (StoredVal.good (createFrom drafts dates init n).1)))
      = ((createFrom drafts dates init n).2).reverse ++ init := by
  show (createFrom drafts dates init n).1 = _
  induction n with
  | zero => rfl
  | succ n ih =>
      rw [createFrom_succ_fst, createPost_snd, createFrom_succ_snd,
        List.reverse_append]
      simp [ih]

/-- C8: for an id matching no record, `getPostById` returns null,
`updatePost` returns null, `deletePost` returns false, and each leaves
the persisted list unchanged. -/
theorem notFound_lookups (id : Int) (posts : List Post)
    (h : ∀ p ∈ posts, p.id ≠ id) :
    getPostById id posts = (none, posts) ∧
    (∀ patch, updatePost id patch posts = (none, posts)) ∧
    deletePost id posts = (false, posts) := by
  refine ⟨?_, ?_, ?_⟩
  · have hfind : posts.find? (fun post => post.id = id) = none := by
      rw [List.find?_eq_none]
      intro p hp
      simpa using h p hp
    simp only [getPostById, hfind]
  · intro patch
    have hidx : posts.findIdx? (fun post => post.id = id) = none := by
      rw [List.findIdx?_eq_none_iff]
      intro p hp
      simpa using h p hp
    simp only [updatePost, hidx]
  · have hfil : posts.filter (fun post => post.id ≠ id) = posts := by
      rw [List.filter_eq_self]
      intro p hp
      simpa using h p hp
    have hdel : deletePost id posts
        = if (posts.filter (fun post => post.id ≠ id)).length = posts.length
          then (false, posts)
          else (true, posts.filter (fun post => post.id ≠ id)) := rfl
    rw [hdel, hfil, if_pos rfl]

/-- Witness for C8: id 99 matches nothing in the demo store. -/
theorem notFound_lookups_witness :
    (∀ p ∈ INITIAL_POSTS, p.id ≠ 99) ∧
    getPostById 99 INITIAL_POSTS = (none, INITIAL_POSTS) ∧
    updatePost 99 {} INITIAL_POSTS = (none, INITIAL_POSTS) ∧
    deletePost 99 INITIAL_POSTS = (false, INITIAL_POSTS) :=
  ⟨by decide, (notFound_lookups 99 INITIAL_POSTS (by decide)).1,
    (notFound_lookups 99 INITIAL_POSTS (by decide)).2.1 {},
    (notFound_lookups 99 INITIAL_POSTS (by decide)).2.2⟩

/-- C10: `getPosts` never propagates a storage error: on every read the
`try` body raises, it returns the fixed three-entry demo list — the same
value it returns when the store actually holds the demo data — and the
missing-key case likewise yields the demo list. -/
theorem getPosts_swallows_read_failures (env : StoreEnv)
    (h : ∃ e, readPostsStore env = Except.error e) :
    getPosts env = INITIAL_POSTS ∧
    INITIAL_POSTS.length = 3 ∧
    getPosts env = getPosts (StoreEnv.development
      (DevRead.value (StoredVal.good INITIAL_POSTS))) ∧
    getPosts (StoreEnv.production ProdRead.missingKey) = INITIAL_POSTS := by
  obtain ⟨e, he⟩ := h
  have hg : getPosts env = INITIAL_POSTS := by
    unfold getPosts
    rw [he]
  exact ⟨hg, rfl, by rw [hg]; rfl, rfl⟩

/-- Witness for C10: a failed remote connection yields the demo list. -/
theorem getPosts_swallows_read_failures_witness :
    (∃ e, readPostsStore (StoreEnv.production ProdRead.connectFail)
        = Except.error e) ∧
    getPosts (StoreEnv.production ProdRead.connectFail) = INITIAL_POSTS :=
  ⟨⟨StorageError.connectionError, rfl⟩,
   (getPosts_swallows_read_failures (StoreEnv.production ProdRead.connectFail)
      ⟨StorageError.connectionError, rfl⟩).1⟩

/-! ## Claim theorems: the extraction pipeline and the route -/

/-- A successful retry run returns data whose kind is the stamped one. -/
lemma runRetriesV2_ok_type (postType : String) (l : List Attempt)
    (e : Extracted) (h : runRetriesV2 postType l = Except.ok e) :
    e.type = postType := by
  induction l with
  | nil => simp [runRetriesV2] at h
  | cons a rest ih =>
      cases ha : attemptResultV2 postType a with
      | ok e2 =>
          have h2 : e2 = e := by
            simp only [runRetriesV2, ha] at h
            exact Except.ok.inj h
          have htype : e2.type = postType := by
            cases a with
            | apiFailure t => simp [attemptResultV2] at ha
            | malformed m => simp [attemptResultV2] at ha
            | parsed j =>
                by_cases hz : zodIssuesV2 postType j = []
                · simp only [attemptResultV2, if_pos hz] at ha
                  rw [← Except.ok.inj ha]
                · simp only [attemptResultV2, if_neg hz] at ha
                  cases ha
          rw [← h2]; exact htype
      | error t =>
          simp only [runRetriesV2, ha] at h
          cases rest with
          | nil =>
              cases t <;> simp at h
          | cons c cs =>
              exact ih h

/-- The inner catch never produces a data body. -/
lemma catchResponseV2_body_err (t : Thrown) (e : Extracted) :
    (catchResponseV2 t).body ≠ RespBody.data e := by
  cases t with
  | custom ctype m f d =>
      by_cases h1 : ctype = "INVALID_FORMAT"
      · simp [catchResponseV2, h1]
      · by_cases h2 : ctype = "API_ERROR"
        · simp [catchResponseV2, h1, h2]
        · simp [catchResponseV2, h1, h2, serverErrorResponse]
  | zodError d => simp [catchResponseV2, serverErrorResponse]
  | jsParseError m => simp [catchResponseV2, serverErrorResponse]
  | nullThrown => simp [catchResponseV2, serverErrorResponse]

/-- The finally block does not alter the response. -/
lemma routeV2_response (env : RouteEnv) :
    (routeV2 env).response = (routeBodyV2 env).response := by
  unfold routeV2
  dsimp only
  split
  · rfl
  · rfl

/-- A 200 response with a data body can only come from a successful
retry run on the effective kind. -/
lemma routeBodyV2_data_source (env : RouteEnv) (e : Extracted)
    (h : (routeBodyV2 env).response
      = { status := 200, body := RespBody.data e }) :
    runRetriesV2 (effectiveType env.typeField) (firstAttempts env.llm 3)
      = Except.ok e := by
  unfold routeBodyV2 at h
  dsimp only at h
  by_cases h1 : env.apiKeyPresent = false
  · rw [if_pos h1] at h
    simp [serverErrorResponse] at h
  · rw [if_neg h1] at h
    by_cases h2 : ¬(effectiveType env.typeField = "Offer"
        ∨ effectiveType env.typeField = "Request")
    · rw [if_pos h2] at h
      simp [badRequestResponse] at h
    · rw [if_neg h2] at h
      by_cases h3 : env.audioProvided = false
      · rw [if_pos h3] at h
        simp [badRequestResponse] at h
      · rw [if_neg h3] at h
        dsimp only at h
        split at h
        · exact absurd (congrArg Response.body h)
            (catchResponseV2_body_err _ e)
        · split at h
          · simp at h
          · split at h
            · rename_i e2 heq
              have he2 : e2 = e := by
                simpa using congrArg Response.body h
              rw [heq, he2]
            · rename_i th heq
              exact absurd (congrArg Response.body h)
                (catchResponseV2_body_err _ e)

/-- Every branch of the route body either never created the temp file
(empty path, file absent) or recorded the nonempty path it wrote. -/
lemma routeBodyV2_temp (env : RouteEnv) :
    ((routeBodyV2 env).tempFilePath = ""
        ∧ (routeBodyV2 env).tempFileExists = false)
    ∨ (routeBodyV2 env).tempFilePath = "recording.wav" := by
  unfold routeBodyV2
  dsimp only
  by_cases h1 : env.apiKeyPresent = false
  · rw [if_pos h1]
    exact Or.inl ⟨rfl, rfl⟩
  · rw [if_neg h1]
    by_cases h2 : ¬(effectiveType env.typeField = "Offer"
        ∨ effectiveType env.typeField = "Request")
    · rw [if_pos h2]
      exact Or.inl ⟨rfl, rfl⟩
    · rw [if_neg h2]
      by_cases h3 : env.audioProvided = false
      · rw [if_pos h3]
        exact Or.inl ⟨rfl, rfl⟩
      · rw [if_neg h3]
        exact Or.inr rfl

/-- C3 counterexample: with all three attempts failing on malformed JSON
the retry loop ends in the re-thrown JSON parse error, which is not an
INVALID_FORMAT error. -/
theorem malformed_attempts_not_invalid_format_cex :
    runRetriesV2 "Offer"
        [Attempt.malformed "Unexpected token",
         Attempt.malformed "Unexpected token",
         Attempt.malformed "Unexpected token"]
      = Except.error (Thrown.jsParseError "Unexpected token") ∧
    isInvalidFormat (runRetriesV2 "Offer"
        [Attempt.malformed "Unexpected token",
         Attempt.malformed "Unexpected token",
         Attempt.malformed "Unexpected token"]) = false :=
  ⟨rfl, rfl⟩

/-- C3 (amended): when all three attempts fail because the response text
is malformed JSON, the extraction step re-raises the last JSON parse
error — not an INVALID_FORMAT error — and the route maps it to the
generic 500 SERVER_ERROR; the INVALID_FORMAT error with the validation
details is reported when the final attempt fails schema validation. -/
theorem malformed_attempts_reraise_parse_error (postType : String)
    (m1 m2 m3 : String) :
    runRetriesV2 postType
        [Attempt.malformed m1, Attempt.malformed m2, Attempt.malformed m3]
      = Except.error (Thrown.jsParseError m3) ∧
    isInvalidFormat (runRetriesV2 postType
        [Attempt.malformed m1, Attempt.malformed m2, Attempt.malformed m3])
      = false ∧
    catchResponseV2 (Thrown.jsParseError m3)
      = serverErrorResponse "Failed to process audio with Groq API" ∧
    runRetriesV2 "Offer"
        [Attempt.malformed m1, Attempt.malformed m2,
         Attempt.parsed { title := some JVal.nonString }]
      = Except.error (invalidFormatError ["title"]) :=
  ⟨rfl, rfl, rfl, rfl⟩

/-- C5: in the draft with the insufficient-information signal, an attempt
raising that signal aborts the retry loop immediately with that error:
whatever attempts would follow are not performed, at every position the
signal can occur. -/
theorem insufficient_info_aborts_immediately (postType : String)
    (fr bk : List Attempt) (a : Attempt) (t : Thrown)
    (hfr : ∀ b ∈ fr, ∃ u, attemptResultV1 postType b = Except.error u ∧
        hasInsufficientTag u = false)
    (ha : attemptResultV1 postType a = Except.error t)
    (ht : hasInsufficientTag t = true) :
    runRetriesV1 postType (fr ++ a :: bk)
      = (Except.error t, fr.length + 1) := by
  induction fr with
  | nil =>
      simp [runRetriesV1, ha, ht]
  | cons b fr ih =>
      obtain ⟨u, hu, hins⟩ := hfr b (List.mem_cons_self b fr)
      have ihh := ih (fun x hx => hfr x (List.mem_cons_of_mem b hx))
      cases hcs : fr ++ a :: bk with
      | nil => exact absurd hcs (by simp)
      | cons c cs =>
          rw [hcs] at ihh
          rw [List.cons_append, hcs, runRetriesV1, hu]
          simp only [hins, Bool.false_eq_true, if_false]
          rw [ihh]
          simp [List.length_cons]

/-- Witness for C5: a failed first attempt, then the signal on attempt 2
of 3 — the loop stops after 2 attempts with the signal. -/
theorem insufficient_info_aborts_immediately_witness :
    (∀ b ∈ [Attempt.malformed "bad json"],
        ∃ u, attemptResultV1 "Offer" b = Except.error u ∧
          hasInsufficientTag u = false) ∧
    attemptResultV1 "Offer" (Attempt.parsed { missing_fields := ["title"] })
      = Except.error (insufficientInfoError ["title"]) ∧
    hasInsufficientTag (insufficientInfoError ["title"]) = true ∧
    runRetriesV1 "Offer"
        ([Attempt.malformed "bad json"]
          ++ Attempt.parsed { missing_fields := ["title"] }
            :: [Attempt.malformed "never reached"])
      = (Except.error (insufficientInfoError ["title"]), 2) := by
  refine ⟨?_, rfl, rfl, ?_⟩
  · intro b hb
    rw [List.mem_singleton] at hb
    subst hb
    exact ⟨Thrown.jsParseError "bad json", rfl, rfl⟩
  · exact insufficient_info_aborts_immediately "Offer"
      [Attempt.malformed "bad json"] [Attempt.malformed "never reached"]
      (Attempt.parsed { missing_fields := ["title"] })
      (insufficientInfoError ["title"])
      (fun b hb => by
        rw [List.mem_singleton] at hb
        subst hb
        exact ⟨Thrown.jsParseError "bad json", rfl, rfl⟩)
      rfl rfl

/-- C9: on every successful extraction the returned kind equals the kind
submitted in the request: the route stamps the requested kind before
validation, so no model output can change it. -/
theorem extraction_type_matches_request (env : RouteEnv) (k : String)
    (e : Extracted)
    (hk : env.typeField = some k)
    (hkv : k = "Offer" ∨ k = "Request")
    (h200 : (routeV2 env).response
      = { status := 200, body := RespBody.data e }) :
    e.type = k := by
  rw [routeV2_response] at h200
  have hsrc := routeBodyV2_data_source env e h200
  have het : effectiveType env.typeField = k := by
    rcases hkv with rfl | rfl <;> rw [hk] <;> rfl
  rw [het] at hsrc
  exact runRetriesV2_ok_type k _ e hsrc

/-- Witness for C9: a successful concrete run with kind "Request"
returns data of kind "Request". -/
theorem extraction_type_matches_request_witness :
    wEnv.typeField = some "Request" ∧
    ("Request" = "Offer" ∨ ("Request" : String) = "Request") ∧
    (routeV2 wEnv).response
      = { status := 200, body := RespBody.data wExtracted } ∧
    wExtracted.type = "Request" := by
  refine ⟨rfl, Or.inr rfl, rfl, ?_⟩
  exact extraction_type_matches_request wEnv "Request" wExtracted rfl
    (Or.inr rfl) rfl

/-- C4: at a request with valid configuration and audio whose transcript
is whitespace only, the canonical route responds 422 with error type
"API_ERROR" ("No speech detected in the audio") — not the
"INSUFFICIENT_INFO" type the specification (and the superseded draft of
the route) gives for silent audio. -/
theorem empty_transcript_labelled_api_error :
    (routeV2 { apiKeyPresent := true, typeField := some "Offer",
               audioProvided := true,
               transcription := Transcription.ok "   ",
               llm := fun _ => Attempt.malformed "unused" }).response
      = { status := 422,
          body := RespBody.err
            { error := "No speech detected in the audio",
              type := "API_ERROR" } } ∧
    ("API_ERROR" : String) ≠ "INSUFFICIENT_INFO" :=
  ⟨rfl, by decide⟩

/-- C6: after every invocation of the route the temporary audio file no
longer exists: the finally block removes it whether the call succeeded or
failed at any stage, and on the early-return paths it was never
created. -/
theorem temp_file_removed_after_route (env : RouteEnv) :
    (routeV2 env).tempFileExists = false := by
  have h := routeBodyV2_temp env
  unfold routeV2
  dsimp only
  rcases h with ⟨hp, he⟩ | hp
  · rw [if_neg (fun hc => hc hp)]
    exact he
  · rw [if_pos (by rw [hp]; decide)]

end CommIt
